import Mathlib

/-!
Verification of the session store, context windower, LLM gateway and chat
orchestrator of the backend (Rust sources under `src/`).

Shallow embedding conventions:
* `bson::DateTime` values are modelled as `Nat` instants; impure calls to
  `DateTime::now()` become explicit `now : Nat` arguments.
* `bson::oid::ObjectId` is modelled as `Nat`; `ObjectId::to_hex` becomes
  `toString`.
* The MongoDB collection is modelled as an association list
  `List (Nat × Session)` keyed by `_id`; the Redis cache as an association
  list `List (String × CacheEntry)` (a value plus the TTL it was set with).
* `serde_json` (an external library) is modelled by an abstract `Codec`
  (encode may fail, decode may fail), mirroring exactly how the Rust code
  branches on `serde_json::to_string` / `serde_json::from_str` results.
* Fallible external calls (Redis get/set/del, MongoDB find/update/insert)
  are made deterministic by a `Faults` record of per-call outcome flags:
  each flag tells whether that particular external call fails, so the
  embedding covers every environment behaviour the Rust code can observe.
* Rust `f32` literals that are only passed through (temperatures) are
  modelled as `Rat` literals.
-/

namespace SoftwareSystem

/-- Association-list lookup, the model of keyed access in both adapters. -/
def assocLookup {α β : Type} [DecidableEq α] (k : α) : List (α × β) → Option β
  | [] => none
  | (k', v) :: rest => if k' = k then some v else assocLookup k rest

/-- Remove every binding of a key (model of Redis `DEL` / overwrite). -/
def assocErase {α β : Type} [DecidableEq α] (k : α) (l : List (α × β)) :
    List (α × β) :=
  l.filter (fun p => p.1 ≠ k)

/-- Set a key to a value, overwriting any previous binding. -/
def assocSet {α β : Type} [DecidableEq α] (k : α) (v : β) (l : List (α × β)) :
    List (α × β) :=
  (k, v) :: assocErase k l

/-- Update the first binding of a key in place (model of MongoDB
`update_one`, which modifies at most one document). -/
def assocUpdate {α β : Type} [DecidableEq α] (k : α) (f : β → β) :
    List (α × β) → List (α × β)
  | [] => []
  | (a, b) :: rest =>
      if a = k then (a, f b) :: rest else (a, b) :: assocUpdate k f rest

/-- `src/modules/session/model.rs`: `Message { role, content, timestamp }`. -/
structure Message where
  role : String
  content : String
  timestamp : Nat
deriving DecidableEq, Repr

/-- `Message::new(role, content)`; the impure `DateTime::now()` is the
explicit `now` argument. -/
def Message.new (now : Nat) (role content : String) : Message :=
  ⟨role, content, now⟩

/-- `Message::user(content)`. -/
def Message.user (now : Nat) (content : String) : Message :=
  Message.new now "user" content

/-- `Message::assistant(content)`. -/
def Message.assistant (now : Nat) (content : String) : Message :=
  Message.new now "assistant" content

/-- `src/modules/session/model.rs`: `Session`. `metadata` is an opaque
`serde_json::Value`, modelled as an uninterpreted `String`. -/
structure Session where
  id : Option Nat
  title : Option String
  session_type : String
  messages : List Message
  metadata : Option String
  created_at : Nat
  updated_at : Nat
deriving DecidableEq, Repr

/-- `Session::new(title, session_type, metadata)`; `now` models the single
`DateTime::now()` call whose value initialises both timestamps. -/
def Session.new (now : Nat) (title : Option String)
    (session_type : Option String) (metadata : Option String) : Session where
  id := none
  title := title
  session_type := session_type.getD "general"
  messages := []
  metadata := metadata
  created_at := now
  updated_at := now

/-- `Session::get_context_messages(&self, limit)`: all messages when there
are at most `limit` of them, otherwise `iter().skip(len - limit)`. -/
def Session.get_context_messages (s : Session) (limit : Nat) : List Message :=
  let len := s.messages.length
  if len ≤ limit then s.messages else s.messages.drop (len - limit)

/-- `Session::add_message(&mut self, message)` (in-memory variant). -/
def Session.addMessageLocal (s : Session) (m : Message) (now : Nat) : Session :=
  { s with messages := s.messages ++ [m], updated_at := now }

/-- A cached value together with the TTL it was set with (Redis `SETEX`). -/
structure CacheEntry where
  value : String
  ttl : Nat
deriving DecidableEq, Repr

/-- The two external stores of `SessionCrud`: the MongoDB `sessions`
collection keyed by `_id`, and the Redis key/value cache. -/
structure SysState where
  store : List (Nat × Session)
  cache : List (String × CacheEntry)
deriving DecidableEq, Repr

/-- Per-call failure behaviour of the external adapters: each flag decides
whether the corresponding external call fails in this run. Redis `GET` of
an absent key already yields `Err` in the Rust typed API, so `getFails`
covers only genuine connection failures. -/
structure Faults where
  getFails : Bool
  setFails : Bool
  delFails : Bool
  insertFails : Bool
  storeFindFails : Bool
  updateFails : Bool
deriving DecidableEq, Repr

/-- The fault-free environment. -/
def Faults.none : Faults := ⟨false, false, false, false, false, false⟩

/-- Model of `serde_json` serialization for `Session`: `to_string` may fail
(the code branches on `if let Ok(json)`), `from_str` may fail (the code
branches on `if let Ok(session)`). -/
structure Codec where
  enc : Session → Option String
  dec : String → Option Session

/-- `src/modules/session/crud.rs`: `CACHE_TTL`, one hour. -/
def CACHE_TTL : Nat := 3600

/-- `SessionCrud::cache_key(id)`: `"session:" + id.to_hex()`. -/
def cache_key (id : Nat) : String := "session:" ++ toString id

/-- Redis `GET` as observed through `redis.get::<_, String>`: `Err` on a
connection fault and on an absent key. -/
def cacheGet (f : Faults) (c : List (String × CacheEntry)) (key : String) :
    Except Unit String :=
  if f.getFails then .error () else
    match assocLookup key c with
    | some e => .ok e.value
    | none => .error ()

/-- Redis `SETEX`; the caller ignores the result, so the model returns the
cache unchanged on failure. -/
def cacheSetEx (f : Faults) (c : List (String × CacheEntry))
    (key value : String) (ttl : Nat) : List (String × CacheEntry) :=
  if f.setFails then c else assocSet key ⟨value, ttl⟩ c

/-- Redis `DEL`; the caller ignores the result, so the model returns the
cache unchanged on failure. -/
def cacheDel (f : Faults) (c : List (String × CacheEntry)) (key : String) :
    List (String × CacheEntry) :=
  if f.delFails then c else assocErase key c

/-- MongoDB `find_one(doc! \x7b "_id": id \x7d)` on the collection. -/
def storeFindOne (store : List (Nat × Session)) (id : Nat) : Option Session :=
  assocLookup id store

/-- MongoDB `update_one` with `$push: \x7b messages: m \x7d` and
`$set: \x7b updated_at: now \x7d`: one atomic single-document update;
returns the new collection and the `modified_count`. -/
def storeUpdatePush (store : List (Nat × Session)) (id : Nat) (m : Message)
    (now : Nat) : List (Nat × Session) × Nat :=
  match assocLookup id store with
  | none => (store, 0)
  | some _ =>
      (assocUpdate id (fun s => s.addMessageLocal m now) store, 1)

/-- `SessionCrud::create`: `insert_one` then return the assigned id; the
cache is never touched. `newId` models the ObjectId MongoDB assigns. -/
def SessionCrud.create (f : Faults) (st : SysState) (session : Session)
    (newId : Nat) : Except Unit Nat × SysState :=
  if f.insertFails then (.error (), st)
  else
    (.ok newId,
     { st with
        store := st.store ++ [(newId, { session with id := some newId })] })

/-- `SessionCrud::find_by_id`: try the cache; on a readable and decodable
hit return it; otherwise fall back to the collection (errors propagate via
`?`); best-effort re-populate the cache only when a session was found. -/
def SessionCrud.find_by_id (c : Codec) (f : Faults) (st : SysState)
    (id : Nat) : Except Unit (Option Session) × SysState :=
  let key := cache_key id
  let fromStore : Except Unit (Option Session) × SysState :=
    if f.storeFindFails then (.error (), st)
    else
      let session := storeFindOne st.store id
      let cache' :=
        match session with
        | some s =>
            match c.enc s with
            | some json => cacheSetEx f st.cache key json CACHE_TTL
            | none => st.cache
        | none => st.cache
      (.ok session, { st with cache := cache' })
  match cacheGet f st.cache key with
  | .ok cached =>
      match c.dec cached with
      | some session => (.ok (some session), st)
      | none => fromStore
  | .error _ => fromStore

/-- `SessionCrud::add_message`: one atomic `update_one`
(`$push` + `$set`, errors propagate via `?`), then an unconditional,
result-ignored cache `DEL`; returns `modified_count > 0`. -/
def SessionCrud.add_message (f : Faults) (st : SysState) (id : Nat)
    (m : Message) (now : Nat) : Except Unit Bool × SysState :=
  if f.updateFails then (.error (), st)
  else
    let r := storeUpdatePush st.store id m now
    (.ok (decide (0 < r.2)), ⟨r.1, cacheDel f st.cache (cache_key id)⟩)

/-- A concrete session used to evaluate the store operations. -/
def sessionA : Session := ⟨some 1, none, "general", [], none, 0, 0⟩

/-- A concrete codec whose decoder recognises exactly the string "S" (as a
serialization of `sessionA`) and whose encoder always fails. -/
def codecHit : Codec :=
  ⟨fun _ => none, fun v => if v = "S" then some sessionA else none⟩

/-- A state whose cache holds a decodable snapshot for id 1 while the
document store is empty: a stale cache entry. -/
def stStale : SysState := ⟨[], [(cache_key 1, ⟨"S", 3600⟩)]⟩

/-- `src/services/llm.rs`: the error taxonomy `LlmError`. `RequestError`
stands for the `reqwest::Error` variant (wrapped transport or body-decode
failures). -/
inductive LlmError where
  | RequestError (msg : String)
  | ApiError (msg : String)
  | MissingApiKey
  | InvalidResponse (msg : String)
deriving DecidableEq, Repr

/-- Outgoing chat message `ChatMessage { role, content }`. -/
structure ChatMessage where
  role : String
  content : String
deriving DecidableEq, Repr

/-- `ApiUsage` of the upstream response. -/
structure ApiUsage where
  prompt_tokens : Nat
  completion_tokens : Nat
  total_tokens : Nat
deriving DecidableEq, Repr

/-- `ChatMessageResponse { content }`. -/
structure ChatMessageResponse where
  content : String
deriving DecidableEq, Repr

/-- `ChatChoice { message }`. -/
structure ChatChoice where
  message : ChatMessageResponse
deriving DecidableEq, Repr

/-- `ChatResponse { id, choices, usage }`, the upstream success body. -/
structure ChatResponse where
  id : String
  choices : List ChatChoice
  usage : Option ApiUsage
deriving DecidableEq, Repr

/-- `UsageInfo` from `src/modules/ai/schema.rs`. -/
structure UsageInfo where
  prompt_tokens : Nat
  completion_tokens : Nat
  total_tokens : Nat
deriving DecidableEq, Repr

/-- `LlmResponse { id, content, usage }`, the gateway's result shape. -/
structure LlmResponse where
  id : String
  content : String
  usage : Option UsageInfo
deriving DecidableEq, Repr

/-- An upstream HTTP response as observed by `complete`: status code and
body text. -/
structure HttpResponse where
  status : Nat
  body : String
deriving DecidableEq, Repr

/-- `reqwest::StatusCode::is_success`: 2xx. -/
def isSuccess (status : Nat) : Bool :=
  decide (200 ≤ status ∧ status < 300)

/-- Model of `serde_json` for the gateway's response bodies:
`parseErr` is `from_str::<ApiErrorResponse>` projected to `error.message`,
`parseResp` is `response.json::<ChatResponse>()`. -/
structure LlmCodec where
  parseErr : String → Option String
  parseResp : String → Option ChatResponse

/-- The argument list of `LlmClient::complete`; Rust `f32` temperatures
are modelled as `Rat` literals. -/
structure CompleteArgs where
  prompt : String
  model : String
  system_prompt : Option String
  max_tokens : Option Nat
  temperature : Option Rat
deriving DecidableEq, Repr

/-- The message list `complete` builds: the optional system message first,
then the user prompt. -/
def buildMessages (args : CompleteArgs) : List ChatMessage :=
  (match args.system_prompt with
   | some sys => [⟨"system", sys⟩]
   | none => []) ++ [⟨"user", args.prompt⟩]

/-- The serialized `ChatRequest { model, messages, max_tokens,
temperature }` sent to `POST \x7bbase_url\x7d/chat/completions`. -/
structure ChatRequest where
  model : String
  messages : List ChatMessage
  max_tokens : Option Nat
  temperature : Option Rat
deriving DecidableEq, Repr

/-- The response-handling half of `LlmClient::complete` (lines 170-197 of
`src/services/llm.rs`): a non-success status maps to `ApiError` carrying
the parsed `error.message` when the body parses and the raw body
otherwise; a success body that fails to decode maps to the wrapped
reqwest error; zero choices map to `InvalidResponse`; otherwise the
result is the first choice's content with the usage counts passed
through when present. -/
def completeOutcome (lc : LlmCodec) (resp : HttpResponse) :
    Except LlmError LlmResponse :=
  if ¬ isSuccess resp.status then
    match lc.parseErr resp.body with
    | some msg => .error (.ApiError msg)
    | none => .error (.ApiError resp.body)
  else
    match lc.parseResp resp.body with
    | none => .error (.RequestError resp.body)
    | some chat =>
        match chat.choices.head? with
        | none => .error (.InvalidResponse "No choices in response")
        | some choice =>
            .ok ⟨chat.id, choice.message.content,
              chat.usage.map (fun u =>
                ⟨u.prompt_tokens, u.completion_tokens, u.total_tokens⟩)⟩

/-- `LlmClient::complete`: the request it sends (built from the
arguments) together with the outcome of handling the provider's
response. -/
def complete (lc : LlmCodec) (args : CompleteArgs) (resp : HttpResponse) :
    ChatRequest × Except LlmError LlmResponse :=
  (⟨args.model, buildMessages args, args.max_tokens, args.temperature⟩,
   completeOutcome lc resp)

/-- The interview / coding-interview system prompt of `suggest`. -/
def interviewPrompt : String :=
  "You are a real-time coding interview coach. Be EXTREMELY concise.\n\nFor coding: give optimal solution in code block, then \"Time: O(?) | Space: O(?) | Pattern: [name]\"\nFor behavioral: give 2-3 bullet points max\nFor system design: list 3-5 key components\n\nNO lengthy explanations. Direct answers only."

/-- The leetcode / coding system prompt of `suggest`. -/
def leetcodePrompt : String :=
  "You are an expert competitive programmer. Give CONCISE answers.\n\nFORMAT:\n```python\n[code]\n```\nTime: O(?) | Space: O(?) | Pattern: [name]\n\nNO explanations unless asked. Code only."

/-- The meeting system prompt of `suggest`. -/
def meetingPrompt : String :=
  "You are a meeting assistant providing real-time suggestions.\n\nRULES:\n- Give actionable responses the user can say immediately\n- Keep suggestions brief (1-2 sentences each)\n- Be professional but natural\n- Provide 2-3 options when appropriate"

/-- The fallback system prompt of `suggest` for unknown or absent types. -/
def genericSuggestPrompt : String :=
  "You are Cleuly, a real-time AI assistant. Be direct, concise, and helpful. Give answers the user can use immediately."

/-- The argument selection of `LlmClient::suggest`: system prompt and
framing template keyed by `suggestion_type` (the Rust `match` on string
patterns, written as an if-chain), with budgets `max_tokens = Some(800)`
and `temperature = Some(0.3)`. -/
def suggestArgs (context model : String) (suggestion_type : Option String) :
    CompleteArgs :=
  let system_prompt :=
    if suggestion_type = some "interview" ∨
       suggestion_type = some "coding_interview" then interviewPrompt
    else if suggestion_type = some "leetcode" ∨
       suggestion_type = some "coding" then leetcodePrompt
    else if suggestion_type = some "meeting" then meetingPrompt
    else genericSuggestPrompt
  let prompt :=
    if suggestion_type = some "interview" ∨
       suggestion_type = some "coding_interview" ∨
       suggestion_type = some "leetcode" ∨
       suggestion_type = some "coding" then
      "Solve this:\n\n" ++ context
    else "Help with this:\n\n" ++ context
  ⟨prompt, model, some system_prompt, some 800, some (3 / 10 : Rat)⟩

/-- `LlmClient::suggest`: delegates to `complete` on the selected
arguments. -/
def suggest (lc : LlmCodec) (context model : String)
    (suggestion_type : Option String) (resp : HttpResponse) :
    ChatRequest × Except LlmError LlmResponse :=
  complete lc (suggestArgs context model suggestion_type) resp

/-- A concrete parser for the canonical
`\x7b"error":\x7b"message":"…"\x7d\x7d` JSON shape with an escape-free
message, used to instantiate the abstract `parseErr` of `LlmCodec` on
such bodies. -/
def parseErrJson (body : String) : Option String :=
  let p := "\x7b\"error\":\x7b\"message\":\"".data
  let s := "\"\x7d\x7d".data
  let b := body.data
  if p.length + s.length ≤ b.length ∧
     b.take p.length = p ∧
     b.drop (b.length - s.length) = s ∧
     ((b.drop p.length).take (b.length - p.length - s.length)).all
       (fun ch => ch != '\"' && ch != '\\') then
    some ⟨(b.drop p.length).take (b.length - p.length - s.length)⟩
  else none

/-- An `LlmCodec` whose error parser is the concrete JSON parser and whose
success parser always fails. -/
def lcJson : LlmCodec := ⟨parseErrJson, fun _ => none⟩

/-- A concrete upstream success body. -/
def crOne : ChatResponse := ⟨"r1", [⟨⟨"hello"⟩⟩], some ⟨1, 2, 3⟩⟩

/-- An `LlmCodec` whose success parser recognises exactly the body "R"
(as a serialization of `crOne`). -/
def lcOk : LlmCodec := ⟨fun _ => none, fun b => if b = "R" then some crOne else none⟩

/-- The context string the chat handler renders from the 10-message
window: `"role: content"` lines joined with newlines. -/
def buildChatContext (session : Session) : String :=
  String.intercalate "\n"
    ((session.get_context_messages 10).map (fun m => m.role ++ ": " ++ m.content))

/-- The prompt the chat handler sends: just the new message when the
context is empty, otherwise the rendered previous conversation followed
by the new user message. -/
def buildChatPrompt (session : Session) (message : String) : String :=
  if (buildChatContext session).isEmpty then message
  else "Previous conversation:\n" ++ buildChatContext session ++
    "\n\nUser: " ++ message

/-- The body of a successful `ChatResponse` of the chat handler
(`src/modules/session/schema.rs`): session id, echoed user message,
assistant reply, model. -/
structure ChatResult where
  session_id : Nat
  message : Message
  response : Message
  model : String
deriving DecidableEq, Repr

/-- The default chat persona system prompt in
`session::controller::chat`. -/
def chatSystemPrompt : String :=
  "You are Cleuly, a helpful AI assistant. Provide concise, helpful responses."

/-- `session::controller::chat` (lines 187-287): load the session
(404 when absent, 500 on store failure), build the windowed prompt, call
`complete` with budgets 1000 tokens / temperature 0.7, then append the
user message and the assistant reply as two separate `add_message` calls
in that order, surfacing a 500 if either append fails. `model` and
`system_prompt` are the already-resolved payload/env defaults; `fF`,
`fA1`, `fA2` are the fault behaviours of the `find_by_id` call and of
the two `add_message` calls; `tU`, `tA` are the construction times of
the two messages and `n1`, `n2` the `updated_at` values written by the
two store updates. -/
def chat (sc : Codec) (lc : LlmCodec) (fF fA1 fA2 : Faults) (st : SysState)
    (id : Nat) (message model system_prompt : String) (resp : HttpResponse)
    (tU tA n1 n2 : Nat) : Except String ChatResult × SysState :=
  match SessionCrud.find_by_id sc fF st id with
  | (.error _, st1) => (.error "server error", st1)
  | (.ok none, st1) => (.error "Session not found", st1)
  | (.ok (some session), st1) =>
      match (complete lc ⟨buildChatPrompt session message, model,
          some system_prompt, some 1000, some (7 / 10 : Rat)⟩ resp).2 with
      | .error _ => (.error "llm error", st1)
      | .ok result =>
          match SessionCrud.add_message fA1 st1 id
              (Message.user tU message) n1 with
          | (.error _, st2) => (.error "server error", st2)
          | (.ok _, st2) =>
              match SessionCrud.add_message fA2 st2 id
                  (Message.assistant tA result.content) n2 with
              | (.error _, st3) => (.error "server error", st3)
              | (.ok _, st3) =>
                  (.ok ⟨id, Message.user tU message,
                    Message.assistant tA result.content, model⟩, st3)

theorem assocLookup_erase_self {α β : Type} [DecidableEq α] (k : α)
    (l : List (α × β)) : assocLookup k (assocErase k l) = none := by
  induction l with
  | nil => rfl
  | cons p rest ih =>
      obtain ⟨a, b⟩ := p
      by_cases h : a = k
      · simpa [assocErase, h] using ih
      · simpa [assocErase, assocLookup, h] using ih

theorem assocLookup_erase_ne {α β : Type} [DecidableEq α] {k k' : α}
    (l : List (α × β)) (h : k' ≠ k) :
    assocLookup k' (assocErase k l) = assocLookup k' l := by
  induction l with
  | nil => rfl
  | cons p rest ih =>
      obtain ⟨a, b⟩ := p
      by_cases hp : a = k
      · subst hp
        have hq : a ≠ k' := fun hk => h hk.symm
        simpa [assocErase, assocLookup, hq] using ih
      · by_cases hq : a = k'
        · subst hq
          simp [assocErase, assocLookup, hp, assocLookup]
        · simpa [assocErase, assocLookup, hp, hq] using ih

theorem assocLookup_set_self {α β : Type} [DecidableEq α] (k : α) (v : β)
    (l : List (α × β)) : assocLookup k (assocSet k v l) = some v := by
  simp [assocSet, assocLookup]

theorem assocLookup_set_ne {α β : Type} [DecidableEq α] {k k' : α} (v : β)
    (l : List (α × β)) (h : k' ≠ k) :
    assocLookup k' (assocSet k v l) = assocLookup k' l := by
  have hne : k ≠ k' := fun hk => h hk.symm
  simp only [assocSet, assocLookup, hne, if_false]
  exact assocLookup_erase_ne l h

theorem assocLookup_update_self {α β : Type} [DecidableEq α] (k : α)
    (f : β → β) (l : List (α × β)) :
    assocLookup k (assocUpdate k f l) = (assocLookup k l).map f := by
  induction l with
  | nil => rfl
  | cons p rest ih =>
      obtain ⟨a, b⟩ := p
      by_cases h : a = k
      · subst h
        simp [assocUpdate, assocLookup]
      · simpa [assocUpdate, assocLookup, h] using ih

theorem assocLookup_update_ne {α β : Type} [DecidableEq α] {k k' : α}
    (f : β → β) (l : List (α × β)) (h : k' ≠ k) :
    assocLookup k' (assocUpdate k f l) = assocLookup k' l := by
  induction l with
  | nil => rfl
  | cons p rest ih =>
      obtain ⟨a, b⟩ := p
      by_cases hp : a = k
      · subst hp
        have hq : a ≠ k' := fun hk => h hk.symm
        simp [assocUpdate, assocLookup, hq]
      · by_cases hq : a = k'
        · subst hq
          simp [assocUpdate, assocLookup, hp]
        · simpa [assocUpdate, assocLookup, hp, hq] using ih

theorem find_by_id_eq_hit (c : Codec) (f : Faults) (st : SysState) (id : Nat)
    (v : String) (s : Session)
    (hget : cacheGet f st.cache (cache_key id) = .ok v)
    (hdec : c.dec v = some s) :
    SessionCrud.find_by_id c f st id = (.ok (some s), st) := by
  unfold SessionCrud.find_by_id
  simp [hget, hdec]

theorem find_by_id_eq_miss (c : Codec) (f : Faults) (st : SysState) (id : Nat)
    (hmiss : ∀ v, cacheGet f st.cache (cache_key id) = .ok v → c.dec v = none)
    (hsf : f.storeFindFails = false) :
    SessionCrud.find_by_id c f st id =
      (.ok (storeFindOne st.store id),
       { st with cache :=
          match storeFindOne st.store id with
          | some s =>
              match c.enc s with
              | some json => cacheSetEx f st.cache (cache_key id) json CACHE_TTL
              | none => st.cache
          | none => st.cache }) := by
  unfold SessionCrud.find_by_id
  cases hget : cacheGet f st.cache (cache_key id) with
  | error e => simp [hget, hsf]
  | ok v =>
      have hdec := hmiss v hget
      simp [hget, hdec, hsf]

theorem cache_hit_or_miss (c : Codec) (f : Faults) (st : SysState)
    (id : Nat) :
    (∃ v s, cacheGet f st.cache (cache_key id) = .ok v ∧ c.dec v = some s) ∨
    (∀ v, cacheGet f st.cache (cache_key id) = .ok v → c.dec v = none) := by
  cases hget : cacheGet f st.cache (cache_key id) with
  | error e => exact Or.inr (fun v hv => nomatch hv)
  | ok v =>
      cases hdec : c.dec v with
      | some s => exact Or.inl ⟨v, s, rfl, hdec⟩
      | none =>
          refine Or.inr (fun v' hv' => ?_)
          have hvv := Except.ok.inj hv'
          subst hvv
          exact hdec

theorem find_by_id_found_shape (c : Codec) (f : Faults) (st : SysState)
    (id : Nat) (s : Session) (hsf : f.storeFindFails = false)
    (hstore : storeFindOne st.store id = some s) :
    ∃ s' st1, SessionCrud.find_by_id c f st id = (.ok (some s'), st1) ∧
      st1.store = st.store := by
  rcases cache_hit_or_miss c f st id with ⟨v, sc', hget, hdec⟩ | hmiss
  · exact ⟨sc', st, find_by_id_eq_hit c f st id v sc' hget hdec, rfl⟩
  · refine ⟨s,
      { st with cache :=
          match c.enc s with
          | some json => cacheSetEx f st.cache (cache_key id) json CACHE_TTL
          | none => st.cache }, ?_, rfl⟩
    rw [find_by_id_eq_miss c f st id hmiss hsf, hstore]

theorem add_message_eq_found (f : Faults) (st : SysState) (id : Nat)
    (m : Message) (now : Nat) (s : Session) (hupd : f.updateFails = false)
    (hsome : storeFindOne st.store id = some s) :
    SessionCrud.add_message f st id m now =
      (.ok true,
       ⟨assocUpdate id (fun x => x.addMessageLocal m now) st.store,
        cacheDel f st.cache (cache_key id)⟩) := by
  unfold storeFindOne at hsome
  unfold SessionCrud.add_message storeUpdatePush
  simp [hupd, hsome]

theorem add_message_eq_notfound (f : Faults) (st : SysState) (id : Nat)
    (m : Message) (now : Nat) (hupd : f.updateFails = false)
    (hnone : storeFindOne st.store id = none) :
    SessionCrud.add_message f st id m now =
      (.ok false, ⟨st.store, cacheDel f st.cache (cache_key id)⟩) := by
  unfold storeFindOne at hnone
  unfold SessionCrud.add_message storeUpdatePush
  simp [hupd, hnone]

theorem add_message_eq_fault (f : Faults) (st : SysState) (id : Nat)
    (m : Message) (now : Nat) (hupd : f.updateFails = true) :
    SessionCrud.add_message f st id m now = (.error (), st) := by
  unfold SessionCrud.add_message
  simp [hupd]

theorem completeOutcome_eq_ok (lc : LlmCodec) (resp : HttpResponse)
    (h : isSuccess resp.status = true) (cr : ChatResponse)
    (hp : lc.parseResp resp.body = some cr) (ch : ChatChoice)
    (rest : List ChatChoice) (hch : cr.choices = ch :: rest) :
    completeOutcome lc resp =
      .ok ⟨cr.id, ch.message.content,
        cr.usage.map (fun u =>
          ⟨u.prompt_tokens, u.completion_tokens, u.total_tokens⟩)⟩ := by
  unfold completeOutcome
  simp [h, hp, hch]

theorem completeOutcome_eq_nochoices (lc : LlmCodec) (resp : HttpResponse)
    (h : isSuccess resp.status = true) (cr : ChatResponse)
    (hp : lc.parseResp resp.body = some cr) (hch : cr.choices = []) :
    completeOutcome lc resp =
      .error (.InvalidResponse "No choices in response") := by
  unfold completeOutcome
  simp [h, hp, hch]

theorem completeOutcome_eq_apierr (lc : LlmCodec) (resp : HttpResponse)
    (h : isSuccess resp.status = false) (msg : String)
    (hp : lc.parseErr resp.body = some msg) :
    completeOutcome lc resp = .error (.ApiError msg) := by
  unfold completeOutcome
  simp [h, hp]

theorem completeOutcome_eq_apierr_raw (lc : LlmCodec) (resp : HttpResponse)
    (h : isSuccess resp.status = false)
    (hp : lc.parseErr resp.body = none) :
    completeOutcome lc resp = .error (.ApiError resp.body) := by
  unfold completeOutcome
  simp [h, hp]

theorem chat_success_eq (sc : Codec) (lc : LlmCodec) (fF fA1 fA2 : Faults)
    (st : SysState) (id : Nat) (message model sp : String)
    (resp : HttpResponse) (tU tA n1 n2 : Nat) (s : Session)
    (hsf : fF.storeFindFails = false)
    (hstore : storeFindOne st.store id = some s)
    (hA1 : fA1.updateFails = false) (hA2 : fA2.updateFails = false)
    (hok : isSuccess resp.status = true) (cr : ChatResponse)
    (hp : lc.parseResp resp.body = some cr) (ch : ChatChoice)
    (rest : List ChatChoice) (hch : cr.choices = ch :: rest) :
    (chat sc lc fF fA1 fA2 st id message model sp resp tU tA n1 n2).1 =
      .ok ⟨id, Message.user tU message,
        Message.assistant tA ch.message.content, model⟩ ∧
    (chat sc lc fF fA1 fA2 st id message model sp resp tU tA n1 n2).2.store =
      assocUpdate id
        (fun x => x.addMessageLocal
          (Message.assistant tA ch.message.content) n2)
        (assocUpdate id
          (fun x => x.addMessageLocal (Message.user tU message) n1)
          st.store) := by
  obtain ⟨s', st1, hfb, hst1⟩ := find_by_id_found_shape sc fF st id s hsf hstore
  have hcomp := completeOutcome_eq_ok lc resp hok cr hp ch rest hch
  have hs1 : storeFindOne st1.store id = some s := by rw [hst1]; exact hstore
  have hadd1 := add_message_eq_found fA1 st1 id (Message.user tU message) n1 s
    hA1 hs1
  have hs2 : storeFindOne
      (assocUpdate id (fun x => x.addMessageLocal (Message.user tU message) n1)
        st1.store) id =
      some (s.addMessageLocal (Message.user tU message) n1) := by
    unfold storeFindOne at hs1 ⊢
    rw [assocLookup_update_self, hs1]
    rfl
  have hadd2 := add_message_eq_found fA2
    ⟨assocUpdate id (fun x => x.addMessageLocal (Message.user tU message) n1)
        st1.store,
      cacheDel fA1 st1.cache (cache_key id)⟩ id
    (Message.assistant tA ch.message.content) n2
    (s.addMessageLocal (Message.user tU message) n1) hA2 hs2
  have hchat : chat sc lc fF fA1 fA2 st id message model sp resp tU tA n1 n2 =
      (.ok ⟨id, Message.user tU message,
        Message.assistant tA ch.message.content, model⟩,
       ⟨assocUpdate id
          (fun x => x.addMessageLocal
            (Message.assistant tA ch.message.content) n2)
          (assocUpdate id
            (fun x => x.addMessageLocal (Message.user tU message) n1)
            st1.store),
        cacheDel fA2 (cacheDel fA1 st1.cache (cache_key id))
          (cache_key id)⟩) := by
    unfold chat
    rw [hfb]
    simp only [complete, hcomp, hadd1, hadd2]
  rw [hchat, hst1]
  exact ⟨rfl, rfl⟩

theorem chat_partial_eq (sc : Codec) (lc : LlmCodec) (fF fA1 fA2 : Faults)
    (st : SysState) (id : Nat) (message model sp : String)
    (resp : HttpResponse) (tU tA n1 n2 : Nat) (s : Session)
    (hsf : fF.storeFindFails = false)
    (hstore : storeFindOne st.store id = some s)
    (hA1 : fA1.updateFails = false) (hA2 : fA2.updateFails = true)
    (hok : isSuccess resp.status = true) (cr : ChatResponse)
    (hp : lc.parseResp resp.body = some cr) (ch : ChatChoice)
    (rest : List ChatChoice) (hch : cr.choices = ch :: rest) :
    (chat sc lc fF fA1 fA2 st id message model sp resp tU tA n1 n2).1 =
      .error "server error" ∧
    (chat sc lc fF fA1 fA2 st id message model sp resp tU tA n1 n2).2.store =
      assocUpdate id
        (fun x => x.addMessageLocal (Message.user tU message) n1)
        st.store := by
  obtain ⟨s', st1, hfb, hst1⟩ := find_by_id_found_shape sc fF st id s hsf hstore
  have hcomp := completeOutcome_eq_ok lc resp hok cr hp ch rest hch
  have hs1 : storeFindOne st1.store id = some s := by rw [hst1]; exact hstore
  have hadd1 := add_message_eq_found fA1 st1 id (Message.user tU message) n1 s
    hA1 hs1
  have hadd2 := add_message_eq_fault fA2
    ⟨assocUpdate id (fun x => x.addMessageLocal (Message.user tU message) n1)
        st1.store,
      cacheDel fA1 st1.cache (cache_key id)⟩ id
    (Message.assistant tA ch.message.content) n2 hA2
  have hchat : chat sc lc fF fA1 fA2 st id message model sp resp tU tA n1 n2 =
      (.error "server error",
       ⟨assocUpdate id
          (fun x => x.addMessageLocal (Message.user tU message) n1)
          st1.store,
        cacheDel fA1 st1.cache (cache_key id)⟩) := by
    unfold chat
    rw [hfb]
    simp only [complete, hcomp, hadd1, hadd2]
  rw [hchat, hst1]
  exact ⟨rfl, rfl⟩

end SoftwareSystem

namespace SoftwareSystem

/-- C1: the context windower returns exactly `min c limit` messages, they
are the trailing `min c limit` messages of the session in original order,
and when `c ≤ limit` the whole sequence is returned unchanged. (The Rust
function takes `&self`, so the session is not mutated; the embedding is a
pure function of the session.) -/
theorem get_context_messages_window (s : Session) (limit : Nat) :
    (s.get_context_messages limit).length =
      min s.messages.length limit ∧
    s.get_context_messages limit =
      s.messages.drop (s.messages.length - min s.messages.length limit) ∧
    (s.messages.length ≤ limit → s.get_context_messages limit = s.messages) := by
  unfold Session.get_context_messages
  by_cases h : s.messages.length ≤ limit
  · simp [h, Nat.min_eq_left h, Nat.sub_self]
  · have hlt : limit < s.messages.length := Nat.lt_of_not_le h
    have hmin : min s.messages.length limit = limit :=
      Nat.min_eq_right (Nat.le_of_lt hlt)
    refine ⟨?_, ?_, ?_⟩
    · simp [h, hmin, List.length_drop]
      omega
    · simp [h, hmin]
    · intro hc
      exact absurd hc h

/-- Witness for C1 at a concrete session: 3 messages, window 2. -/
theorem get_context_messages_window_witness :
    let m1 : Message := ⟨"user", "a", 1⟩
    let m2 : Message := ⟨"assistant", "b", 2⟩
    let m3 : Message := ⟨"user", "c", 3⟩
    let s : Session := ⟨none, none, "general", [m1, m2, m3], none, 0, 3⟩
    (s.get_context_messages 2).length = min s.messages.length 2 ∧
    s.get_context_messages 2 =
      s.messages.drop (s.messages.length - min s.messages.length 2) ∧
    (s.messages.length ≤ 2 → s.get_context_messages 2 = s.messages) :=
  get_context_messages_window _ 2

/-- C9: a session constructed with no title, no type and no metadata has
`session_type = "general"`, an empty message sequence, and equal creation
and update timestamps (so `updated_at ≥ created_at` holds at creation);
`SessionCrud::create` never writes to the cache. -/
theorem session_new_defaults (now : Nat) (f : Faults) (st : SysState)
    (nid : Nat) :
    (Session.new now none none none).session_type = "general" ∧
    (Session.new now none none none).messages = [] ∧
    (Session.new now none none none).created_at =
      (Session.new now none none none).updated_at ∧
    (Session.new now none none none).created_at ≤
      (Session.new now none none none).updated_at ∧
    (SessionCrud.create f st (Session.new now none none none) nid).2.cache =
      st.cache := by
  refine ⟨rfl, rfl, rfl, Nat.le_refl _, ?_⟩
  unfold SessionCrud.create
  by_cases h : f.insertFails <;> simp [h]

/-- C3: when the store update succeeds and the Redis `DEL` call succeeds,
`add_message` leaves the cache entry for `"session:" + id` absent — whether
or not a session matched — and touches no other cache key, so it never
writes an updated session snapshot into the cache; the `DEL` is issued
unconditionally after the store update. -/
theorem add_message_invalidates_cache (f : Faults) (st : SysState) (id : Nat)
    (m : Message) (now : Nat) (hupd : f.updateFails = false)
    (hdel : f.delFails = false) :
    (∃ b, (SessionCrud.add_message f st id m now).1 = .ok b) ∧
    assocLookup (cache_key id)
      (SessionCrud.add_message f st id m now).2.cache = none ∧
    (∀ k, k ≠ cache_key id →
      assocLookup k (SessionCrud.add_message f st id m now).2.cache =
        assocLookup k st.cache) := by
  have h1 : SessionCrud.add_message f st id m now =
      (.ok (decide (0 < (storeUpdatePush st.store id m now).2)),
        ⟨(storeUpdatePush st.store id m now).1,
          cacheDel f st.cache (cache_key id)⟩) := by
    unfold SessionCrud.add_message
    simp [hupd]
  refine ⟨⟨_, by rw [h1]⟩, ?_, ?_⟩
  · rw [h1]
    simp [cacheDel, hdel, assocLookup_erase_self]
  · intro k hk
    rw [h1]
    simp only [cacheDel, hdel, if_false, Bool.false_eq_true]
    exact assocLookup_erase_ne st.cache hk

/-- Witness for C3: a concrete state whose cache holds the session's entry
and an unrelated key; after `add_message` the entry is gone and the other
key is untouched. -/
theorem add_message_invalidates_cache_witness :
    let s0 : Session := ⟨some 1, none, "general", [], none, 0, 0⟩
    let st : SysState :=
      ⟨[(1, s0)], [(cache_key 1, ⟨"S", 3600⟩), ("other", ⟨"T", 5⟩)]⟩
    let m : Message := ⟨"user", "hi", 7⟩
    (∃ b, (SessionCrud.add_message Faults.none st 1 m 7).1 = .ok b) ∧
    assocLookup (cache_key 1)
      (SessionCrud.add_message Faults.none st 1 m 7).2.cache = none ∧
    (∀ k, k ≠ cache_key 1 →
      assocLookup k (SessionCrud.add_message Faults.none st 1 m 7).2.cache =
        assocLookup k st.cache) :=
  add_message_invalidates_cache Faults.none _ 1 _ 7 rfl rfl

/-- C10: if the document store holds no session for the id, `find_by_id`
leaves the whole state (in particular the cache) unchanged; and on the
fallback path, when a session is found, serializes, and the cache write
succeeds, the cache is populated under `"session:" + id` with TTL
`CACHE_TTL = 3600` seconds. -/
theorem find_by_id_cache_population (c : Codec) (f : Faults) (st : SysState)
    (id : Nat) :
    (storeFindOne st.store id = none →
      (SessionCrud.find_by_id c f st id).2 = st) ∧
    (∀ s json,
      (∀ v, cacheGet f st.cache (cache_key id) = .ok v → c.dec v = none) →
      f.storeFindFails = false →
      storeFindOne st.store id = some s →
      c.enc s = some json →
      f.setFails = false →
      CACHE_TTL = 3600 ∧
      (SessionCrud.find_by_id c f st id).2.cache =
        assocSet (cache_key id) ⟨json, CACHE_TTL⟩ st.cache) := by
  constructor
  · intro hnone
    unfold SessionCrud.find_by_id
    cases hget : cacheGet f st.cache (cache_key id) with
    | error e =>
        by_cases hsf : f.storeFindFails <;> simp [hget, hsf, hnone]
    | ok v =>
        cases hdec : c.dec v with
        | some s => simp [hget, hdec]
        | none =>
            by_cases hsf : f.storeFindFails <;> simp [hget, hdec, hsf, hnone]
  · intro s json hmiss hsf hsome henc hset
    refine ⟨rfl, ?_⟩
    rw [find_by_id_eq_miss c f st id hmiss hsf]
    simp [hsome, henc, cacheSetEx, hset]

/-- Witness for C10: empty cache, one stored session; `find_by_id` caches
it with TTL 3600 (and at an absent id 2 the state is unchanged). -/
theorem find_by_id_cache_population_witness :
    let s0 : Session := ⟨some 1, none, "general", [], none, 0, 0⟩
    let cJ : Codec := ⟨fun _ => some "J", fun _ => none⟩
    let st : SysState := ⟨[(1, s0)], []⟩
    (storeFindOne st.store 2 = none →
      (SessionCrud.find_by_id cJ Faults.none st 2).2 = st) ∧
    (CACHE_TTL = 3600 ∧
      (SessionCrud.find_by_id cJ Faults.none st 1).2.cache =
        assocSet (cache_key 1) ⟨"J", CACHE_TTL⟩ st.cache) := by
  refine ⟨(find_by_id_cache_population _ _ _ 2).1, ?_⟩
  exact (find_by_id_cache_population _ Faults.none _ 1).2 _ "J"
    (fun v hv => by simp [cacheGet, Faults.none, assocLookup] at hv)
    rfl rfl rfl rfl

/-- C2 (amended): with a successful store read, `find_by_id` never fails;
a readable cache entry that decodes is returned as-is; on a cache read
failure, cache miss, or decode failure the document-store result is
returned (so on those paths absent is reported exactly when the id is
absent from the store, and a cache write-back failure cannot change the
returned value); in every case absent is reported only if the id is absent
from the store. -/
theorem find_by_id_read_through (c : Codec) (f : Faults) (st : SysState)
    (id : Nat) (hsf : f.storeFindFails = false) :
    (∃ r, (SessionCrud.find_by_id c f st id).1 = .ok r) ∧
    (∀ v s, cacheGet f st.cache (cache_key id) = .ok v → c.dec v = some s →
      (SessionCrud.find_by_id c f st id).1 = .ok (some s)) ∧
    ((∀ v, cacheGet f st.cache (cache_key id) = .ok v → c.dec v = none) →
      (SessionCrud.find_by_id c f st id).1 = .ok (storeFindOne st.store id)) ∧
    ((SessionCrud.find_by_id c f st id).1 = .ok none →
      storeFindOne st.store id = none) := by
  have hcases :
      (∃ v s, cacheGet f st.cache (cache_key id) = .ok v ∧ c.dec v = some s) ∨
      (∀ v, cacheGet f st.cache (cache_key id) = .ok v → c.dec v = none) := by
    cases hget : cacheGet f st.cache (cache_key id) with
    | error e =>
        exact Or.inr (fun v hv => nomatch hv)
    | ok v =>
        cases hdec : c.dec v with
        | some s => exact Or.inl ⟨v, s, rfl, hdec⟩
        | none =>
            refine Or.inr (fun v' hv' => ?_)
            have hvv := Except.ok.inj hv'
            subst hvv
            exact hdec
  refine ⟨?_, ?_, ?_, ?_⟩
  · rcases hcases with ⟨v, s, hget, hdec⟩ | hmiss
    · exact ⟨some s, by rw [find_by_id_eq_hit c f st id v s hget hdec]⟩
    · exact ⟨storeFindOne st.store id,
        by rw [find_by_id_eq_miss c f st id hmiss hsf]⟩
  · intro v s hget hdec
    rw [find_by_id_eq_hit c f st id v s hget hdec]
  · intro hmiss
    rw [find_by_id_eq_miss c f st id hmiss hsf]
  · intro habs
    rcases hcases with ⟨v, s, hget, hdec⟩ | hmiss
    · rw [find_by_id_eq_hit c f st id v s hget hdec] at habs
      cases habs
    · rw [find_by_id_eq_miss c f st id hmiss hsf] at habs
      exact Except.ok.inj habs

/-- Witness for C2: cache holds a decodable snapshot for id 1; the store
also holds the session; all four conjuncts are discharged at this state. -/
theorem find_by_id_read_through_witness :
    let s0 : Session := ⟨some 1, none, "general", [], none, 0, 0⟩
    let cHit : Codec :=
      ⟨fun _ => none, fun v => if v = "S" then some s0 else none⟩
    let st : SysState := ⟨[(1, s0)], [(cache_key 1, ⟨"S", 3600⟩)]⟩
    (∃ r, (SessionCrud.find_by_id cHit Faults.none st 1).1 = .ok r) ∧
    (∀ v s, cacheGet Faults.none st.cache (cache_key 1) = .ok v →
      cHit.dec v = some s →
      (SessionCrud.find_by_id cHit Faults.none st 1).1 = .ok (some s)) ∧
    ((∀ v, cacheGet Faults.none st.cache (cache_key 1) = .ok v →
        cHit.dec v = none) →
      (SessionCrud.find_by_id cHit Faults.none st 1).1 =
        .ok (storeFindOne st.store 1)) ∧
    ((SessionCrud.find_by_id cHit Faults.none st 1).1 = .ok none →
      storeFindOne st.store 1 = none) :=
  find_by_id_read_through _ Faults.none _ 1 rfl

/-- C4: with a successful store update, `add_message` performs the single
atomic update that appends `m` and sets `updated_at`, returns `true`
exactly when a session with the id existed (leaving the store unchanged
and returning `false` otherwise), and — when the invalidation `DEL` and a
later store read succeed — a subsequent `find_by_id` returns the session
with exactly one more message whose last element is `m`. -/
theorem add_message_append_roundtrip (c : Codec) (f f' : Faults)
    (st : SysState) (id : Nat) (m : Message) (now : Nat)
    (hupd : f.updateFails = false) :
    (storeFindOne st.store id = none →
      SessionCrud.add_message f st id m now =
        (.ok false, ⟨st.store, cacheDel f st.cache (cache_key id)⟩)) ∧
    (∀ s, storeFindOne st.store id = some s →
      (SessionCrud.add_message f st id m now).1 = .ok true ∧
      storeFindOne (SessionCrud.add_message f st id m now).2.store id =
        some (s.addMessageLocal m now) ∧
      (s.addMessageLocal m now).messages = s.messages ++ [m] ∧
      (s.addMessageLocal m now).updated_at = now ∧
      (∀ k, k ≠ id →
        storeFindOne (SessionCrud.add_message f st id m now).2.store k =
          storeFindOne st.store k) ∧
      (f.delFails = false → f'.storeFindFails = false →
        (SessionCrud.find_by_id c f'
            (SessionCrud.add_message f st id m now).2 id).1 =
          .ok (some (s.addMessageLocal m now)) ∧
        (s.addMessageLocal m now).messages.length = s.messages.length + 1 ∧
        (s.addMessageLocal m now).messages.getLast? = some m)) := by
  constructor
  · intro hnone
    unfold SessionCrud.add_message
    simp [hupd, storeUpdatePush, storeFindOne] at *
    simp [hnone]
  · intro s hsome
    have hpush : storeUpdatePush st.store id m now =
        (assocUpdate id (fun x => x.addMessageLocal m now) st.store, 1) := by
      unfold storeUpdatePush
      unfold storeFindOne at hsome
      simp [hsome]
    have hadd : SessionCrud.add_message f st id m now =
        (.ok true,
         ⟨assocUpdate id (fun x => x.addMessageLocal m now) st.store,
          cacheDel f st.cache (cache_key id)⟩) := by
      unfold SessionCrud.add_message
      simp [hupd, hpush]
    have hlook : storeFindOne
        (assocUpdate id (fun x => x.addMessageLocal m now) st.store) id =
        some (s.addMessageLocal m now) := by
      unfold storeFindOne at *
      rw [assocLookup_update_self]
      simp [hsome]
    refine ⟨by rw [hadd], by rw [hadd]; exact hlook, rfl, rfl, ?_, ?_⟩
    · intro k hk
      rw [hadd]
      exact assocLookup_update_ne _ st.store hk
    · intro hdel hsf
      refine ⟨?_, by simp [Session.addMessageLocal], ?_⟩
      · have hmiss : ∀ v,
            cacheGet f' (SessionCrud.add_message f st id m now).2.cache
              (cache_key id) = .ok v → c.dec v = none := by
          intro v hv
          rw [hadd] at hv
          unfold cacheGet at hv
          by_cases hg : f'.getFails
          · simp [hg] at hv
          · simp [hg, cacheDel, hdel, assocLookup_erase_self] at hv
        rw [find_by_id_eq_miss c f' _ id hmiss hsf]
        rw [hadd]
        simpa using hlook
      · simp [Session.addMessageLocal]

/-- Witness for C4: one stored session with one message; appending a
second message and reading it back through the store. -/
theorem add_message_append_roundtrip_witness :
    let s0 : Session := ⟨some 1, none, "general", [⟨"user", "hi", 1⟩], none, 0, 1⟩
    let st : SysState := ⟨[(1, s0)], []⟩
    let m : Message := ⟨"assistant", "yo", 2⟩
    (storeFindOne st.store 1 = none →
      SessionCrud.add_message Faults.none st 1 m 2 =
        (.ok false, ⟨st.store, cacheDel Faults.none st.cache (cache_key 1)⟩)) ∧
    (∀ s, storeFindOne st.store 1 = some s →
      (SessionCrud.add_message Faults.none st 1 m 2).1 = .ok true ∧
      storeFindOne (SessionCrud.add_message Faults.none st 1 m 2).2.store 1 =
        some (s.addMessageLocal m 2) ∧
      (s.addMessageLocal m 2).messages = s.messages ++ [m] ∧
      (s.addMessageLocal m 2).updated_at = 2 ∧
      (∀ k, k ≠ 1 →
        storeFindOne (SessionCrud.add_message Faults.none st 1 m 2).2.store k =
          storeFindOne st.store k) ∧
      (Faults.none.delFails = false → Faults.none.storeFindFails = false →
        (SessionCrud.find_by_id codecHit Faults.none
            (SessionCrud.add_message Faults.none st 1 m 2).2 1).1 =
          .ok (some (s.addMessageLocal m 2)) ∧
        (s.addMessageLocal m 2).messages.length = s.messages.length + 1 ∧
        (s.addMessageLocal m 2).messages.getLast? = some m)) :=
  add_message_append_roundtrip codecHit Faults.none Faults.none _ 1 _ 2 rfl

/-- C5: on a non-success HTTP status, `complete` fails with `ApiError`
carrying the parsed `error.message` when the body parses as
`\x7b"error":\x7b"message":…\x7d\x7d`, and the raw response body
otherwise. -/
theorem complete_non_success (lc : LlmCodec) (args : CompleteArgs)
    (resp : HttpResponse) (h : isSuccess resp.status = false) :
    (∀ msg, lc.parseErr resp.body = some msg →
      (complete lc args resp).2 = .error (.ApiError msg)) ∧
    (lc.parseErr resp.body = none →
      (complete lc args resp).2 = .error (.ApiError resp.body)) := by
  constructor
  · intro msg hp
    exact completeOutcome_eq_apierr lc resp h msg hp
  · intro hp
    exact completeOutcome_eq_apierr_raw lc resp h hp

/-- Witness for C5: the spec scenario — HTTP 401 with the concrete body
parsing to "invalid key" yields `ApiError "invalid key"`. -/
theorem complete_non_success_witness :
    isSuccess 401 = false ∧
    lcJson.parseErr "\x7b\"error\":\x7b\"message\":\"invalid key\"\x7d\x7d" =
      some "invalid key" ∧
    (complete lcJson ⟨"p", "m", none, none, none⟩
        ⟨401, "\x7b\"error\":\x7b\"message\":\"invalid key\"\x7d\x7d"⟩).2 =
      .error (.ApiError "invalid key") := by
  have hp : lcJson.parseErr
      "\x7b\"error\":\x7b\"message\":\"invalid key\"\x7d\x7d" =
      some "invalid key" := by decide
  exact ⟨by decide, hp,
    (complete_non_success lcJson ⟨"p", "m", none, none, none⟩
      ⟨401, "\x7b\"error\":\x7b\"message\":\"invalid key\"\x7d\x7d"⟩
      (by decide)).1 "invalid key" hp⟩

/-- C6: on a success status whose body parses, `complete` returns the
first choice's message content with the usage counts passed through
exactly when present; zero choices fail with `InvalidResponse`. -/
theorem complete_success (lc : LlmCodec) (args : CompleteArgs)
    (resp : HttpResponse) (h : isSuccess resp.status = true)
    (cr : ChatResponse) (hp : lc.parseResp resp.body = some cr) :
    (cr.choices = [] →
      (complete lc args resp).2 =
        .error (.InvalidResponse "No choices in response")) ∧
    (∀ ch rest, cr.choices = ch :: rest →
      (complete lc args resp).2 =
        .ok ⟨cr.id, ch.message.content,
          cr.usage.map (fun u =>
            ⟨u.prompt_tokens, u.completion_tokens, u.total_tokens⟩)⟩) := by
  constructor
  · intro hch
    exact completeOutcome_eq_nochoices lc resp h cr hp hch
  · intro ch rest hch
    exact completeOutcome_eq_ok lc resp h cr hp ch rest hch

/-- Witness for C6: a concrete 200 response decoding to `crOne` yields its
single choice's content and its usage counts. -/
theorem complete_success_witness :
    isSuccess 200 = true ∧
    lcOk.parseResp "R" = some crOne ∧
    (complete lcOk ⟨"p", "m", none, none, none⟩ ⟨200, "R"⟩).2 =
      .ok ⟨"r1", "hello", some ⟨1, 2, 3⟩⟩ := by
  have hp : lcOk.parseResp "R" = some crOne := by simp [lcOk]
  exact ⟨by decide, hp,
    (complete_success lcOk ⟨"p", "m", none, none, none⟩ ⟨200, "R"⟩
      (by decide) crOne hp).2 ⟨⟨"hello"⟩⟩ [] rfl⟩

/-- Counterexample for C7 as stated: the token and temperature budgets of
`suggest` are not tuned per category — the coding category and the
generic freeform fallback receive the identical fixed budget
(`max_tokens = 800`, `temperature = 0.3`), so coding is not shorter or
more deterministic than freeform help. -/
theorem suggest_budget_counterexample :
    (suggestArgs "c" "m" (some "coding")).max_tokens =
      (suggestArgs "c" "m" none).max_tokens ∧
    (suggestArgs "c" "m" (some "coding")).temperature =
      (suggestArgs "c" "m" none).temperature ∧
    (suggestArgs "c" "m" (some "coding")).max_tokens = some 800 ∧
    (suggestArgs "c" "m" (some "coding")).temperature =
      some (3 / 10 : Rat) :=
  ⟨rfl, rfl, rfl, rfl⟩

/-- C7 (amended): `suggest` selects the system prompt and the framing
template keyed by the suggestion type — unknown or absent types falling
back to the generic assistant prompt — and delegates to `complete` with
one fixed budget for every category: 800 tokens, temperature 0.3. -/
theorem suggest_dispatch (lc : LlmCodec) (context model : String)
    (ty : Option String) (resp : HttpResponse) :
    suggest lc context model ty resp =
      complete lc (suggestArgs context model ty) resp ∧
    (suggestArgs context model ty).max_tokens = some 800 ∧
    (suggestArgs context model ty).temperature = some (3 / 10 : Rat) ∧
    (suggest lc context model ty resp).1.max_tokens = some 800 ∧
    (suggest lc context model ty resp).1.temperature = some (3 / 10 : Rat) ∧
    ((ty = some "interview" ∨ ty = some "coding_interview") →
      (suggestArgs context model ty).system_prompt = some interviewPrompt) ∧
    ((ty = some "leetcode" ∨ ty = some "coding") →
      (suggestArgs context model ty).system_prompt = some leetcodePrompt) ∧
    (ty = some "meeting" →
      (suggestArgs context model ty).system_prompt = some meetingPrompt) ∧
    ((ty = some "interview" ∨ ty = some "coding_interview" ∨
      ty = some "leetcode" ∨ ty = some "coding") →
      (suggestArgs context model ty).prompt = "Solve this:\n\n" ++ context) ∧
    ((∀ t, ty = some t →
        t ∉ (["interview", "coding_interview", "leetcode", "coding",
          "meeting"] : List String)) →
      (suggestArgs context model ty).system_prompt =
        some genericSuggestPrompt ∧
      (suggestArgs context model ty).prompt =
        "Help with this:\n\n" ++ context) := by
  refine ⟨rfl, rfl, rfl, rfl, rfl, ?_, ?_, ?_, ?_, ?_⟩
  · rintro (rfl | rfl) <;> simp [suggestArgs]
  · rintro (rfl | rfl) <;> simp [suggestArgs]
  · rintro rfl
    simp [suggestArgs]
  · rintro (rfl | rfl | rfl | rfl) <;> simp [suggestArgs]
  · intro hunk
    cases ty with
    | none => simp [suggestArgs]
    | some t =>
        have ht := hunk t rfl
        simp only [List.mem_cons, List.not_mem_nil, or_false, not_or] at ht
        obtain ⟨h1, h2, h3, h4, h5⟩ := ht
        simp [suggestArgs, h1, h2, h3, h4, h5]

/-- Witness for C7 (amended): an unknown type and the absent type select
the generic prompt and the freeform framing; coding selects the solving
framing. -/
theorem suggest_dispatch_witness :
    ((suggestArgs "ctx" "m" (some "weird")).system_prompt =
      some genericSuggestPrompt ∧
     (suggestArgs "ctx" "m" (some "weird")).prompt =
      "Help with this:\n\n" ++ "ctx") ∧
    ((suggestArgs "ctx" "m" none).system_prompt =
      some genericSuggestPrompt ∧
     (suggestArgs "ctx" "m" none).prompt =
      "Help with this:\n\n" ++ "ctx") ∧
    (suggestArgs "ctx" "m" (some "coding")).prompt =
      "Solve this:\n\n" ++ "ctx" := by
  refine ⟨?_, ?_, ?_⟩
  · exact (suggest_dispatch lcOk "ctx" "m" (some "weird")
      ⟨200, "R"⟩).2.2.2.2.2.2.2.2.2
      (by intro t ht; injection ht with h; subst h; decide)
  · exact (suggest_dispatch lcOk "ctx" "m" none
      ⟨200, "R"⟩).2.2.2.2.2.2.2.2.2 (fun t ht => nomatch ht)
  · exact (suggest_dispatch lcOk "ctx" "m" (some "coding")
      ⟨200, "R"⟩).2.2.2.2.2.2.2.2.1 (Or.inr (Or.inr (Or.inr rfl)))

/-- C8: a chat invocation on an existing session appends the user message
first and the assistant reply second as two separate `add_message` calls
in that order: a successful invocation adds exactly the two messages
`[user, assistant]`; two sequential successful invocations add exactly
four (`[user, assistant, user, assistant]` in call order); and when the
assistant append fails after the user append succeeded, the invocation
surfaces a server error while the user message remains recorded in the
store. -/
theorem chat_two_appends (sc : Codec) (lc : LlmCodec) (fF fA1 fA2 : Faults)
    (st : SysState) (id : Nat) (message model sp : String)
    (resp : HttpResponse) (tU tA n1 n2 : Nat) (s : Session)
    (hsf : fF.storeFindFails = false)
    (hstore : storeFindOne st.store id = some s)
    (hA1 : fA1.updateFails = false)
    (hok : isSuccess resp.status = true) (cr : ChatResponse)
    (hp : lc.parseResp resp.body = some cr) (ch : ChatChoice)
    (rest : List ChatChoice) (hch : cr.choices = ch :: rest) :
    (fA2.updateFails = false →
      (chat sc lc fF fA1 fA2 st id message model sp resp tU tA n1 n2).1 =
        .ok ⟨id, Message.user tU message,
          Message.assistant tA ch.message.content, model⟩ ∧
      storeFindOne
          (chat sc lc fF fA1 fA2 st id message model sp resp tU tA n1 n2).2.store
          id =
        some ((s.addMessageLocal (Message.user tU message) n1).addMessageLocal
          (Message.assistant tA ch.message.content) n2) ∧
      ((s.addMessageLocal (Message.user tU message) n1).addMessageLocal
          (Message.assistant tA ch.message.content) n2).messages =
        s.messages ++ [Message.user tU message,
          Message.assistant tA ch.message.content]) ∧
    (fA2.updateFails = true →
      (chat sc lc fF fA1 fA2 st id message model sp resp tU tA n1 n2).1 =
        .error "server error" ∧
      storeFindOne
          (chat sc lc fF fA1 fA2 st id message model sp resp tU tA n1 n2).2.store
          id =
        some (s.addMessageLocal (Message.user tU message) n1) ∧
      (s.addMessageLocal (Message.user tU message) n1).messages =
        s.messages ++ [Message.user tU message]) ∧
    (∀ (fF2 fA3 fA4 : Faults) (message2 : String) (resp2 : HttpResponse)
        (cr2 : ChatResponse) (ch2 : ChatChoice) (rest2 : List ChatChoice)
        (tU2 tA2 n3 n4 : Nat),
      fA2.updateFails = false →
      fF2.storeFindFails = false → fA3.updateFails = false →
      fA4.updateFails = false → isSuccess resp2.status = true →
      lc.parseResp resp2.body = some cr2 → cr2.choices = ch2 :: rest2 →
      ∃ sFinal, storeFindOne
          (chat sc lc fF2 fA3 fA4
            (chat sc lc fF fA1 fA2 st id message model sp resp tU tA n1 n2).2
            id message2 model sp resp2 tU2 tA2 n3 n4).2.store id =
          some sFinal ∧
        sFinal.messages = s.messages ++
          [Message.user tU message, Message.assistant tA ch.message.content,
           Message.user tU2 message2,
           Message.assistant tA2 ch2.message.content]) := by
  refine ⟨?_, ?_, ?_⟩
  · intro hA2
    have h := chat_success_eq sc lc fF fA1 fA2 st id message model sp resp
      tU tA n1 n2 s hsf hstore hA1 hA2 hok cr hp ch rest hch
    refine ⟨h.1, ?_, by simp [Session.addMessageLocal]⟩
    rw [h.2]
    unfold storeFindOne at hstore ⊢
    rw [assocLookup_update_self, assocLookup_update_self, hstore]
    rfl
  · intro hA2
    have h := chat_partial_eq sc lc fF fA1 fA2 st id message model sp resp
      tU tA n1 n2 s hsf hstore hA1 hA2 hok cr hp ch rest hch
    refine ⟨h.1, ?_, by simp [Session.addMessageLocal]⟩
    rw [h.2]
    unfold storeFindOne at hstore ⊢
    rw [assocLookup_update_self, hstore]
    rfl
  · intro fF2 fA3 fA4 message2 resp2 cr2 ch2 rest2 tU2 tA2 n3 n4 hA2 hsf2
      hA3 hA4 hok2 hp2 hch2
    have h1 := chat_success_eq sc lc fF fA1 fA2 st id message model sp resp
      tU tA n1 n2 s hsf hstore hA1 hA2 hok cr hp ch rest hch
    have hmid : storeFindOne
        (chat sc lc fF fA1 fA2 st id message model sp resp tU tA n1 n2).2.store
        id =
        some ((s.addMessageLocal (Message.user tU message) n1).addMessageLocal
          (Message.assistant tA ch.message.content) n2) := by
      rw [h1.2]
      unfold storeFindOne at hstore ⊢
      rw [assocLookup_update_self, assocLookup_update_self, hstore]
      rfl
    have h2 := chat_success_eq sc lc fF2 fA3 fA4
      (chat sc lc fF fA1 fA2 st id message model sp resp tU tA n1 n2).2
      id message2 model sp resp2 tU2 tA2 n3 n4
      ((s.addMessageLocal (Message.user tU message) n1).addMessageLocal
        (Message.assistant tA ch.message.content) n2)
      hsf2 hmid hA3 hA4 hok2 cr2 hp2 ch2 rest2 hch2
    refine ⟨(((s.addMessageLocal (Message.user tU message) n1).addMessageLocal
        (Message.assistant tA ch.message.content) n2).addMessageLocal
        (Message.user tU2 message2) n3).addMessageLocal
        (Message.assistant tA2 ch2.message.content) n4, ?_, ?_⟩
    · rw [h2.2]
      unfold storeFindOne at hmid ⊢
      rw [assocLookup_update_self, assocLookup_update_self, hmid]
      rfl
    · simp [Session.addMessageLocal]

/-- Witness for C8: a concrete empty session; one chat turn appends
`[user "hi", assistant "hello"]` and a second turn extends to the four
messages in call order. -/
theorem chat_two_appends_witness :
    (chat codecHit lcOk Faults.none Faults.none Faults.none
        ⟨[(1, sessionA)], []⟩ 1 "hi" "m" chatSystemPrompt ⟨200, "R"⟩
        1 2 3 4).1 =
      .ok ⟨1, Message.user 1 "hi", Message.assistant 2 "hello", "m"⟩ ∧
    (∃ sFinal, storeFindOne
        (chat codecHit lcOk Faults.none Faults.none Faults.none
          (chat codecHit lcOk Faults.none Faults.none Faults.none
            ⟨[(1, sessionA)], []⟩ 1 "hi" "m" chatSystemPrompt ⟨200, "R"⟩
            1 2 3 4).2
          1 "again" "m" chatSystemPrompt ⟨200, "R"⟩ 5 6 7 8).2.store 1 =
        some sFinal ∧
      sFinal.messages = sessionA.messages ++
        [Message.user 1 "hi", Message.assistant 2 "hello",
         Message.user 5 "again", Message.assistant 6 "hello"]) := by
  have h := chat_two_appends codecHit lcOk Faults.none Faults.none Faults.none
    ⟨[(1, sessionA)], []⟩ 1 "hi" "m" chatSystemPrompt ⟨200, "R"⟩ 1 2 3 4
    sessionA rfl rfl rfl (by decide) crOne (by simp [lcOk]) ⟨⟨"hello"⟩⟩ [] rfl
  exact ⟨(h.1 rfl).1,
    h.2.2 Faults.none Faults.none Faults.none "again" ⟨200, "R"⟩ crOne
      ⟨⟨"hello"⟩⟩ [] 5 6 7 8 rfl rfl rfl rfl (by decide) (by simp [lcOk]) rfl⟩

/-- Counterexample for C2 as stated: a stale cache entry that decodes to a
session makes `find_by_id` return that session even though the id is
absent from the document store, so "returns absent if and only if the id
is absent from the document store" fails in the if direction. -/
theorem find_by_id_absent_iff_counterexample :
    storeFindOne stStale.store 1 = none ∧
    (SessionCrud.find_by_id codecHit Faults.none stStale 1).1 =
      .ok (some sessionA) ∧
    ¬((SessionCrud.find_by_id codecHit Faults.none stStale 1).1 = .ok none ↔
      storeFindOne stStale.store 1 = none) := by
  have hget : cacheGet Faults.none stStale.cache (cache_key 1) = .ok "S" := by
    simp [cacheGet, Faults.none, stStale, assocLookup]
  have hdec : codecHit.dec "S" = some sessionA := by
    simp [codecHit]
  have hhit := find_by_id_eq_hit codecHit Faults.none stStale 1 "S" sessionA
    hget hdec
  refine ⟨rfl, ?_, ?_⟩
  · rw [hhit]
  · intro h
    have habs := h.mpr rfl
    rw [hhit] at habs
    cases habs

end SoftwareSystem
